import Mathlib

/-!
Shallow embedding of `source/js/canvasHeader.js`: the animated canvas-header
grid (points, vectors, colors, the grid construction `newGrid`, the per-frame
update `animateGrid`, and the renderer `drawGrid`).

Modelling conventions:
* JavaScript numbers on the geometry path are modelled as `Option ℝ`
  (`JNum`): `some x` is the finite number `x`, `none` models a non-finite
  result (NaN).  The only operation producing a non-finite value from finite
  arguments in this program is division by zero inside `Vector.normalized`
  (in JS `0/0` is NaN), plus the square root of a negative number, which
  cannot arise here; both are mapped to `none`.
* `Math.random()` is modelled as an explicit stream `rnd : ℕ → ℚ` of draws
  together with a clock (the index of the next draw); every function that
  consumes randomness takes the clock and returns the advanced clock.
* Color-channel arithmetic stays in `ℚ`/`ℤ` (it never meets a square root),
  so the color pipeline is fully computable.
* The driving loop, the canvas 2D context, and the mouse-event listener are
  external interfaces and are not part of the embedding; `drawGrid` returns
  the list of polygons it would paint.
-/

namespace CanvasHeader

/-- JavaScript numbers on the geometry path: `some x` is a finite value,
`none` a non-finite one (NaN). -/
abbrev JNum := Option ℝ

/-- Addition on `JNum` (non-finite operands propagate). -/
def jadd : JNum → JNum → JNum
  | some a, some b => some (a + b)
  | _, _ => none

/-- Subtraction on `JNum`. -/
def jsub : JNum → JNum → JNum
  | some a, some b => some (a - b)
  | _, _ => none

/-- Multiplication on `JNum`. -/
def jmul : JNum → JNum → JNum
  | some a, some b => some (a * b)
  | _, _ => none

/-- JavaScript division on `JNum`.  A zero divisor is mapped to `none`: in
JS `0/0` is NaN, and in this program a zero divisor only ever occurs in
`Vector.normalized` with a zero numerator (the zero vector), so the result
is exactly NaN on every reachable computation. -/
noncomputable def jdiv : JNum → JNum → JNum
  | some a, some b => if b = 0 then none else some (a / b)
  | _, _ => none

/-- `Math.sqrt` (NaN on negative input, which cannot arise here). -/
noncomputable def jsqrt : JNum → JNum
  | some a => if a < 0 then none else some (Real.sqrt a)
  | none => none

/-- `Math.abs`. -/
def jabs : JNum → JNum
  | some a => some |a|
  | none => none

/-- `Math.pow(x, 2)` as used by the source. -/
def jpow2 (a : JNum) : JNum := jmul a a

/-- JavaScript `<` on numbers: false whenever either side is non-finite. -/
def jlt (a b : JNum) : Prop := ∃ x y, a = some x ∧ b = some y ∧ x < y

/-- `Point` (source lines 39-56); coordinates are JavaScript numbers. -/
structure Point where
  x : JNum
  y : JNum

/-- `Vector` (source lines 64-116). -/
structure Vector where
  x : JNum
  y : JNum

/-- `Point.prototype.move`. -/
def Point.move (p : Point) (v : Vector) : Point :=
  ⟨jadd p.x v.x, jadd p.y v.y⟩

/-- `Point.prototype.isEqual`. -/
def Point.isEqual (p q : Point) : Prop := p.x = q.x ∧ p.y = q.y

/-- `Vector.fromPoints(p1, p2)`: the componentwise difference `p1 - p2`
(the vector pointing from `p2` to `p1`). -/
def Vector.fromPoints (p1 p2 : Point) : Vector :=
  ⟨jsub p1.x p2.x, jsub p1.y p2.y⟩

/-- `Vector.prototype.getDistance`:
`Math.abs(Math.sqrt(Math.pow(x, 2) + Math.pow(y, 2)))`. -/
noncomputable def Vector.getDistance (v : Vector) : JNum :=
  jabs (jsqrt (jadd (jpow2 v.x) (jpow2 v.y)))

/-- `Vector.prototype.normalized`: divides both components by the length
(for the zero vector this is `0/0`, i.e. NaN components). -/
noncomputable def Vector.normalized (v : Vector) : Vector :=
  let dist := v.getDistance
  ⟨jdiv v.x dist, jdiv v.y dist⟩

/-- `Vector.prototype.invert`. -/
def Vector.invert (v : Vector) : Vector :=
  ⟨jmul v.x (some (-1)), jmul v.y (some (-1))⟩

/-- `Vector.prototype.multiply` (element-wise). -/
def Vector.multiply (v w : Vector) : Vector :=
  ⟨jmul v.x w.x, jmul v.y w.y⟩

/-- `Vector.prototype.multiplyScalar`. -/
def Vector.multiplyScalar (v : Vector) (n : JNum) : Vector :=
  ⟨jmul v.x n, jmul v.y n⟩

/-- The `limit` helper (source lines 22-30): clamp `value` into
`[mn, mx]`. -/
def limit (value mn mx : ℤ) : ℤ :=
  if value < mn then mn else if value > mx then mx else value

/-- JavaScript `parseInt(x, 10)` applied to a finite, decimally printed
number: truncation toward zero. -/
def jsParseInt (q : ℚ) : ℤ := if 0 ≤ q then ⌊q⌋ else ⌈q⌉

/-- The `Color` r/g/b property setter: `limit(parseInt(v, 10), 0, 255)`. -/
def setChannel (v : ℚ) : ℤ := limit (jsParseInt v) 0 255

/-- `Color`: the stored channel backing fields `_r`, `_g`, `_b`. -/
structure Color where
  r : ℤ
  g : ℤ
  b : ℤ
  deriving DecidableEq

/-- JavaScript `v || 0` for a finite numeric `v`: `0` stays `0`, everything
else is itself (the identity on numbers). -/
def jsOrZero (q : ℚ) : ℚ := if q = 0 then 0 else q

/-- `new Color(r, g, b)`: each argument passes `v || 0` and then the
clamping channel setter. -/
def mkColor (r g b : ℚ) : Color :=
  ⟨setChannel (jsOrZero r), setChannel (jsOrZero g), setChannel (jsOrZero b)⟩

/-- Channel invariant of `Color`: every stored channel lies in `[0, 255]`. -/
def ColorValid (c : Color) : Prop :=
  0 ≤ c.r ∧ c.r ≤ 255 ∧ 0 ≤ c.g ∧ c.g ≤ 255 ∧ 0 ≤ c.b ∧ c.b ≤ 255

instance : DecidablePred ColorValid := fun c => by
  unfold ColorValid; infer_instance

/-- JavaScript `Number.prototype.toString(16)` on a natural number:
lowercase base-16 digits. -/
def jsToString16 (n : ℕ) : String := String.mk (Nat.toDigits 16 n)

/-- `Color.prototype.getHexCode` (source lines 229-238): a leading hash
sign, then each channel in base 16, zero-padded when below 16.  The
source accumulates with `+=`; string concatenation is associative, so the
pieces are grouped per channel here. -/
def getHexCode (c : Color) : String :=
  "#" ++ ((if c.r < 16 then "0" else "") ++ jsToString16 c.r.toNat)
      ++ ((if c.g < 16 then "0" else "") ++ jsToString16 c.g.toNat)
      ++ ((if c.b < 16 then "0" else "") ++ jsToString16 c.b.toNat)

/-- Lowercase hexadecimal digit characters. -/
def isHexCh (ch : Char) : Bool := ch.isDigit || ('a' ≤ ch && ch ≤ 'f')

/-- The random source: `rnd t` is draw number `t` of `Math.random()`
(a value in `[0, 1)`). -/
abbrev RSrc := ℕ → ℚ

/-- `getRandomInt(min, max)` with the clock:
`Math.floor(Math.random() * (max - min + 1)) + min`; consumes one draw. -/
def getRandomInt (rnd : RSrc) (t : ℕ) (mn mx : ℚ) : ℚ × ℕ :=
  (((⌊rnd t * (mx - mn + 1)⌋ : ℤ) : ℚ) + mn, t + 1)

/-- `getRandomColor(color, randomness)` (source lines 259-269): three
sequential `getRandomInt` draws, one per channel.  The `!color` and
`isNaN(randomness)` guards are dropped: every call site of the program
passes a constructed color and a numeric randomness. -/
def getRandomColor (rnd : RSrc) (t : ℕ) (c : Color) (randomness : ℚ) :
    Color × ℕ :=
  let f := randomness / 100
  let rp := getRandomInt rnd t ((c.r : ℚ) * (1 - f)) ((c.r : ℚ) + (255 - (c.r : ℚ)) * f)
  let gp := getRandomInt rnd rp.2 ((c.g : ℚ) * (1 - f)) ((c.g : ℚ) + (255 - (c.g : ℚ)) * f)
  let bp := getRandomInt rnd gp.2 ((c.b : ℚ) * (1 - f)) ((c.b : ℚ) + (255 - (c.b : ℚ)) * f)
  (mkColor rp.1 gp.1 bp.1, bp.2)

/-- One grid cell: `_color` (basis color), `color` (display color),
`orgPos` (rest position), `currPos` (animated position). -/
structure Node where
  _color : Color
  color : Color
  orgPos : Point
  currPos : Point

/-- The configuration object passed to `newGrid`. -/
structure Config where
  posRandomness : ℚ
  startColor : Color
  startColorRandomness : ℚ
  overTimeColorRandomness : ℚ
  gridSize : ℚ

/-- Red channel borrowed from an optional neighbor node's display `color`,
falling back to the red channel of the start-color sample. -/
def chanR (o : Option Node) (startC : Color) : ℚ :=
  match o with
  | some nd => (nd.color.r : ℚ)
  | none => (startC.r : ℚ)

/-- Green channel borrowed from an optional neighbor node. -/
def chanG (o : Option Node) (startC : Color) : ℚ :=
  match o with
  | some nd => (nd.color.g : ℚ)
  | none => (startC.g : ℚ)

/-- Blue channel borrowed from an optional neighbor node. -/
def chanB (o : Option Node) (startC : Color) : ℚ :=
  match o with
  | some nd => (nd.color.b : ℚ)
  | none => (startC.b : ℚ)

/-- The `new Color(grid[lineIndex-1] ? ... : startColor.r, ...)` expression
of `newGrid` (source lines 288-298): red from the node directly above,
green from the upper-left diagonal neighbor, blue from the node to the
left, each falling back to the per-node `startColor` sample.  `prevRow` is
the completed previous row (`grid[lineIndex-1]`, absent on the first row),
`rowAcc` the nodes already built in the current row.  Previous rows are
always complete, so the inner `pr.get? j` lookup for the red channel never
misses when `prevRow` is present. -/
def baseColorOf (prevRow : Option (List Node)) (rowAcc : List Node) (j : ℕ)
    (startC : Color) : Color :=
  mkColor
    (chanR (prevRow.bind fun pr => pr.get? j) startC)
    (chanG (if j = 0 then none else prevRow.bind fun pr => pr.get? (j - 1)) startC)
    (chanB (if j = 0 then none else rowAcc.get? (j - 1)) startC)

/-- One iteration of the inner loop of `newGrid` (source lines 277-307):
builds node `(i, j)`.  Consumes 11 random draws in source order: two for
the position jitter (the source wraps `s.posRandomness` into a vector with
equal components first), three for the start-color sample, three for the
`overTimeColorRandomness` perturbation, three for the zero-randomness
display copy.  The rest position is a fresh point with the same
coordinates as `currPos`. -/
def mkNode (s : Config) (rnd : RSrc) (t : ℕ) (i j : ℕ)
    (prevRow : Option (List Node)) (rowAcc : List Node) : Node × ℕ :=
  let jxp := getRandomInt rnd t (-s.posRandomness) s.posRandomness
  let jyp := getRandomInt rnd jxp.2 (-s.posRandomness) s.posRandomness
  let p0 : Point := ⟨some ((i : ℝ) * (s.gridSize : ℝ)), some ((j : ℝ) * (s.gridSize : ℝ))⟩
  let p1 := p0.move ⟨some (-40), some (-40)⟩
  let currPos := p1.move ⟨some ((jxp.1 : ℝ)), some ((jyp.1 : ℝ))⟩
  let startCp := getRandomColor rnd jyp.2 s.startColor s.startColorRandomness
  let basep := getRandomColor rnd startCp.2 (baseColorOf prevRow rowAcc j startCp.1)
      (jsOrZero s.overTimeColorRandomness)
  let dispp := getRandomColor rnd basep.2 basep.1 0
  (⟨basep.1, dispp.1, ⟨currPos.x, currPos.y⟩, currPos⟩, dispp.2)

/-- Number of rows allocated by `newGrid`:
`parseInt(canvas.width / s.gridSize, 10) + 5` (source line 272). -/
def rowsOf (w : ℚ) (s : Config) : ℕ := (jsParseInt (w / s.gridSize) + 5).toNat

/-- Nodes per row: `parseInt(canvas.height / s.gridSize, 10) + 5`
(source line 275). -/
def colsOf (h : ℚ) (s : Config) : ℕ := (jsParseInt (h / s.gridSize) + 5).toNat

/-- The inner (`nodeIndex`) loop of `newGrid`: the first `m` nodes of row
`i` together with the clock after building them. -/
def rowAux (s : Config) (rnd : RSrc) (prevRow : Option (List Node))
    (i : ℕ) (t : ℕ) : ℕ → List Node × ℕ
  | 0 => ([], t)
  | m + 1 =>
    let q := rowAux s rnd prevRow i t m
    let np := mkNode s rnd q.2 i m prevRow q.1
    (q.1 ++ [np.1], np.2)

/-- The outer (`lineIndex`) loop of `newGrid`: the first `n` rows and the
clock after them.  Row `i` reads the completed previous row
(`grid[lineIndex - 1]`) from the accumulator; on the first row the lookup
is `grid[-1]`, i.e. absent. -/
def gridAux (h : ℚ) (s : Config) (rnd : RSrc) : ℕ → List (List Node) × ℕ
  | 0 => ([], 0)
  | n + 1 =>
    let p := gridAux h s rnd n
    let rp := rowAux s rnd (p.1.get? (n - 1)) n p.2 (colsOf h s)
    (p.1 ++ [rp.1], rp.2)

/-- `newGrid` (source lines 271-312), parameterized by the canvas size
`w × h` and the random source. -/
def newGrid (w h : ℚ) (s : Config) (rnd : RSrc) : List (List Node) :=
  (gridAux h s rnd (rowsOf w s)).1

/-- The node at row `i`, column `j` of a grid, if present. -/
def nodeAt (g : List (List Node)) (i j : ℕ) : Option Node :=
  (g.get? i).bind fun row => row.get? j

open Classical in
/-- The pointer branch of `animateGrid` (source lines 345-355): if a mouse
position is known, compute `diff = orgPos - mousePos`, its length, and the
influence `pow = 1 - (dist / 420)^2`; when `pow > 0`, set `currPos` to
`orgPos` displaced by `normalized(diff) * (30, 30) * (pow, pow)` — i.e.
along the direction from the pointer to the rest position. -/
noncomputable def pointerStage (mouse : Option Point) (n : Node) : Node :=
  match mouse with
  | none => n
  | some mp =>
    let diff := Vector.fromPoints n.orgPos mp
    let dist := diff.getDistance
    let pw := jsub (some 1) (jpow2 (jdiv dist (some 420)))
    if jlt (some 0) pw then
      { n with
        currPos := n.orgPos.move
          ((diff.normalized.multiply ⟨some 30, some 30⟩).multiply ⟨pw, pw⟩) }
    else n

/-- One axis of the smoothing step (source lines 357-358):
`(org + curr * 50) / 51`. -/
noncomputable def smoothAxis (org curr : JNum) : JNum :=
  jdiv (jadd org (jmul curr (some 50))) (some 51)

/-- The unconditional smoothing step of `animateGrid`. -/
noncomputable def smoothStage (n : Node) : Node :=
  { n with
    currPos := ⟨smoothAxis n.orgPos.x n.currPos.x,
                smoothAxis n.orgPos.y n.currPos.y⟩ }

/-- The full per-node body of `animateGrid`: pointer displacement, then
smoothing. -/
noncomputable def animateNode (mouse : Option Point) (n : Node) : Node :=
  smoothStage (pointerStage mouse n)

/-- Apply `f` to the first `k` elements of a list (the loops of
`animateGrid` run over indices `< length - 1`). -/
def mapUpTo (f : α → α) : ℕ → List α → List α
  | _, [] => []
  | 0, l => l
  | k + 1, a :: l => f a :: mapUpTo f k l

/-- `animateGrid` (source lines 340-361): updates every node except those
in the last row and last column of each row. -/
noncomputable def animateGrid (g : List (List Node)) (mouse : Option Point) :
    List (List Node) :=
  mapUpTo (fun row => mapUpTo (animateNode mouse) (row.length - 1) row)
    (g.length - 1) g

/-- `n` repetitions of `animateGrid` with no pointer position. -/
noncomputable def iterAnimate : ℕ → List (List Node) → List (List Node)
  | 0, g => g
  | n + 1, g => animateGrid (iterAnimate n g) none

/-- A polygon as handed to the canvas (source lines 154-158); the actual
painting (`Polygon.prototype.fill`) is a canvas side effect outside the
embedding. -/
structure Polygon where
  points : List Point
  color : Color
  borderColor : Option Color

/-- The settings object passed to `drawGrid`. -/
structure DrawSettings where
  baseColor : Option Color
  borderColor : Option Color
  baseColorOpacity : ℚ

/-- One cell of `drawGrid` (source lines 317-335): a zero-randomness copy
of the cell's display color, optionally blended toward `baseColor` channel
by channel through the clamping setter, and the quadrilateral of the four
surrounding current positions.  The loops keep `i + 1` and `j + 1` in
range, so the lookup fallback never fires. -/
def drawCell (g : List (List Node)) (s : DrawSettings) (rnd : RSrc) (t : ℕ)
    (i j : ℕ) : Option Polygon × ℕ :=
  match nodeAt g i j, nodeAt g (i + 1) j, nodeAt g i (j + 1), nodeAt g (i + 1) (j + 1) with
  | some nd, some below, some right, some diag =>
    let cp := getRandomColor rnd t nd.color 0
    let c1 :=
      match s.baseColor with
      | some bc =>
        let c := cp.1
        let cr : Color := { c with r := setChannel (((c.r : ℚ) + (bc.r : ℚ) * s.baseColorOpacity) / (1 + s.baseColorOpacity)) }
        let cg : Color := { cr with g := setChannel (((cr.g : ℚ) + (bc.g : ℚ) * s.baseColorOpacity) / (1 + s.baseColorOpacity)) }
        { cg with b := setChannel (((cg.b : ℚ) + (bc.b : ℚ) * s.baseColorOpacity) / (1 + s.baseColorOpacity)) }
      | none => cp.1
    (some ⟨[below.currPos, nd.currPos, right.currPos, diag.currPos], c1, s.borderColor⟩, cp.2)
  | _, _, _, _ => (none, t + 3)

/-- The inner loop of `drawGrid` over one row. -/
def drawRow (g : List (List Node)) (s : DrawSettings) (rnd : RSrc)
    (i : ℕ) (t : ℕ) : ℕ → List Polygon × ℕ
  | 0 => ([], t)
  | m + 1 =>
    let q := drawRow g s rnd i t m
    let c := drawCell g s rnd q.2 i m
    (q.1 ++ c.1.elim [] (fun p => [p]), c.2)

/-- The outer loop of `drawGrid`. -/
def drawAux (g : List (List Node)) (s : DrawSettings) (rnd : RSrc) :
    ℕ → List Polygon × ℕ
  | 0 => ([], 0)
  | n + 1 =>
    let q := drawAux g s rnd n
    let r := drawRow g s rnd n q.2 (((g.get? n).elim 0 List.length) - 1)
    (q.1 ++ r.1, r.2)

/-- `drawGrid` (source lines 314-338): the polygons painted for a grid.
It only reads the grid; the color it adjusts is the fresh copy returned by
`getRandomColor`. -/
def drawGrid (g : List (List Node)) (s : DrawSettings) (rnd : RSrc) :
    List Polygon :=
  (drawAux g s rnd (g.length - 1)).1

/-- The repository's construction configuration (source lines 365-373),
with `gridSize` fixed at 80 for the concrete instances below (the source
derives it from the screen width). -/
def cfg0 : Config :=
  { posRandomness := 26
    startColor := mkColor 80 90 250
    startColorRandomness := 10
    overTimeColorRandomness := 5
    gridSize := 80 }

/-- All-zero random draws. -/
def rndZero : RSrc := fun _ => 0

/-- Constant one-half random draws. -/
def rndHalf : RSrc := fun _ => 1 / 2

/-- A concrete node with rest position `(ox, oy)` and current position
`(cx, cy)`, used in the concrete instances. -/
def sampleNode (ox oy cx cy : ℝ) : Node :=
  ⟨mkColor 80 90 250, mkColor 80 90 250, ⟨some ox, some oy⟩, ⟨some cx, some cy⟩⟩

/-- A one-by-one grid: both its row and its column are the sentinel last
row/column, so `animateGrid` updates nothing. -/
def gridC5 : List (List Node) := [[sampleNode 0 0 5 0]]

/-- A two-by-two grid whose node `(0, 0)` is displaced to `(51, 0)` while
resting at `(0, 0)`. -/
def gridC5w : List (List Node) :=
  [[sampleNode 0 0 51 0, sampleNode 0 80 0 80],
   [sampleNode 80 0 80 0, sampleNode 80 80 80 80]]

/-- Stated from the specification's words for comparison with the code:
the x-coordinate of the rest position displaced along the normalized
direction vector from the rest position toward the pointer, scaled by
`30 * k` with `k = 1 - (d / 420)^2`. -/
noncomputable def specTowardX (ox oy mx my : ℝ) : ℝ :=
  ox + (mx - ox) / Real.sqrt ((mx - ox) ^ 2 + (my - oy) ^ 2) * 30 *
    (1 - ((mx - ox) ^ 2 + (my - oy) ^ 2) / 176400)

/-- Euclidean distance between `(x, y)` and `(ox, oy)`. -/
noncomputable def distOf (x y ox oy : ℝ) : ℝ :=
  Real.sqrt ((x - ox) ^ 2 + (y - oy) ^ 2)

/-! ## Basic lemmas about colors and the random source -/

theorem jsOrZero_eq (q : ℚ) : jsOrZero q = q := by
  unfold jsOrZero
  split
  · simp_all
  · rfl

theorem limit_mem (v : ℤ) : 0 ≤ limit v 0 255 ∧ limit v 0 255 ≤ 255 := by
  unfold limit
  split
  · omega
  · split <;> omega

theorem setChannel_mem (v : ℚ) : 0 ≤ setChannel v ∧ setChannel v ≤ 255 :=
  limit_mem (jsParseInt v)

theorem mkColor_valid (r g b : ℚ) : ColorValid (mkColor r g b) := by
  obtain ⟨h1, h2⟩ := setChannel_mem (jsOrZero r)
  obtain ⟨h3, h4⟩ := setChannel_mem (jsOrZero g)
  obtain ⟨h5, h6⟩ := setChannel_mem (jsOrZero b)
  exact ⟨h1, h2, h3, h4, h5, h6⟩

theorem jsParseInt_intCast (n : ℤ) : jsParseInt (n : ℚ) = n := by
  unfold jsParseInt
  split <;> simp

theorem setChannel_intCast (n : ℤ) (h0 : 0 ≤ n) (h1 : n ≤ 255) :
    setChannel (n : ℚ) = n := by
  unfold setChannel limit
  rw [jsParseInt_intCast]
  rw [if_neg (by omega), if_neg (by omega)]

theorem getRandomInt_snd (rnd : RSrc) (t : ℕ) (mn mx : ℚ) :
    (getRandomInt rnd t mn mx).2 = t + 1 := rfl

theorem getRandomInt_fst_self (rnd : RSrc) (t : ℕ) (mn mx : ℚ)
    (h1 : 0 ≤ rnd t) (h2 : rnd t < 1) (heq : mx = mn) :
    (getRandomInt rnd t mn mx).1 = mn := by
  unfold getRandomInt
  dsimp only
  rw [heq]
  have h3 : mn - mn + 1 = 1 := by ring
  rw [h3, mul_one, Int.floor_eq_zero_iff.mpr ⟨h1, h2⟩]
  norm_num

theorem getRandomColor_snd (rnd : RSrc) (t : ℕ) (c : Color) (q : ℚ) :
    (getRandomColor rnd t c q).2 = t + 3 := rfl

theorem getRandomColor_zero_fst (rnd : RSrc) (t : ℕ) (c : Color)
    (hc : ColorValid c)
    (hd : ∀ k, k < 3 → 0 ≤ rnd (t + k) ∧ rnd (t + k) < 1) :
    (getRandomColor rnd t c 0).1 = c := by
  obtain ⟨hr0, hr1, hg0, hg1, hb0, hb1⟩ := hc
  have h00 := hd 0 (by norm_num)
  have h01 := hd 1 (by norm_num)
  have h02 := hd 2 (by norm_num)
  rw [Nat.add_zero] at h00
  simp only [getRandomColor, getRandomInt_snd]
  rw [getRandomInt_fst_self rnd t _ _ h00.1 h00.2 (by ring),
    getRandomInt_fst_self rnd (t + 1) _ _ h01.1 h01.2 (by ring),
    getRandomInt_fst_self rnd (t + 2) _ _ h02.1 h02.2 (by ring)]
  have er : (c.r : ℚ) * (1 - 0 / 100) = ((c.r : ℤ) : ℚ) := by ring
  have eg : (c.g : ℚ) * (1 - 0 / 100) = ((c.g : ℤ) : ℚ) := by ring
  have eb : (c.b : ℚ) * (1 - 0 / 100) = ((c.b : ℤ) : ℚ) := by ring
  rw [er, eg, eb]
  unfold mkColor
  rw [jsOrZero_eq, jsOrZero_eq, jsOrZero_eq,
    setChannel_intCast c.r hr0 hr1,
    setChannel_intCast c.g hg0 hg1,
    setChannel_intCast c.b hb0 hb1]

/-! ## Lemmas about the grid construction -/

theorem get?_concat_of_length {α : Type} {l : List α} {a : α} {n : ℕ}
    (hl : l.length = n) : (l ++ [a]).get? n = some a := by
  subst hl
  exact List.get?_concat_length l a

theorem mkNode_snd (s : Config) (rnd : RSrc) (t i j : ℕ)
    (pv : Option (List Node)) (rc : List Node) :
    (mkNode s rnd t i j pv rc).2 = t + 11 := rfl

theorem mkNode_orgPos_currPos (s : Config) (rnd : RSrc) (t i j : ℕ)
    (pv : Option (List Node)) (rc : List Node) :
    (mkNode s rnd t i j pv rc).1.orgPos = (mkNode s rnd t i j pv rc).1.currPos := rfl

theorem rowAux_length (s : Config) (rnd : RSrc) (pv : Option (List Node))
    (i t : ℕ) : ∀ m, (rowAux s rnd pv i t m).1.length = m := by
  intro m
  induction m with
  | zero => rfl
  | succ m ih => simp [rowAux, ih]

theorem rowAux_snd (s : Config) (rnd : RSrc) (pv : Option (List Node))
    (i t : ℕ) : ∀ m, (rowAux s rnd pv i t m).2 = t + 11 * m := by
  intro m
  induction m with
  | zero => rfl
  | succ m ih =>
    show (mkNode s rnd (rowAux s rnd pv i t m).2 i m pv (rowAux s rnd pv i t m).1).2 = _
    rw [mkNode_snd, ih]
    ring

theorem rowAux_get? (s : Config) (rnd : RSrc) (pv : Option (List Node))
    (i t : ℕ) {j : ℕ} : ∀ {m}, j < m →
    (rowAux s rnd pv i t m).1.get? j =
      some (mkNode s rnd (t + 11 * j) i j pv (rowAux s rnd pv i t j).1).1 := by
  intro m
  induction m with
  | zero => omega
  | succ m ih =>
    intro hj
    rcases Nat.lt_succ_iff_lt_or_eq.mp hj with h | h
    · show ((rowAux s rnd pv i t m).1 ++ _).get? j = _
      rw [List.get?_append (by rw [rowAux_length]; exact h)]
      exact ih h
    · subst h
      show ((rowAux s rnd pv i t j).1 ++ [(mkNode s rnd (rowAux s rnd pv i t j).2 i j pv (rowAux s rnd pv i t j).1).1]).get? j = _
      rw [rowAux_snd]
      exact get?_concat_of_length (rowAux_length s rnd pv i t j)

theorem gridAux_length (h : ℚ) (s : Config) (rnd : RSrc) :
    ∀ n, (gridAux h s rnd n).1.length = n := by
  intro n
  induction n with
  | zero => rfl
  | succ n ih => simp [gridAux, ih]

theorem gridAux_snd (h : ℚ) (s : Config) (rnd : RSrc) :
    ∀ n, (gridAux h s rnd n).2 = 11 * colsOf h s * n := by
  intro n
  induction n with
  | zero => rfl
  | succ n ih =>
    show (rowAux s rnd _ n (gridAux h s rnd n).2 (colsOf h s)).2 = _
    rw [rowAux_snd, ih]
    ring

theorem gridAux_get? (h : ℚ) (s : Config) (rnd : RSrc) {i : ℕ} :
    ∀ {n}, i < n →
    (gridAux h s rnd n).1.get? i =
      some (rowAux s rnd ((gridAux h s rnd i).1.get? (i - 1)) i
        (11 * colsOf h s * i) (colsOf h s)).1 := by
  intro n
  induction n with
  | zero => omega
  | succ n ih =>
    intro hi
    rcases Nat.lt_succ_iff_lt_or_eq.mp hi with hlt | heq
    · show ((gridAux h s rnd n).1 ++ _).get? i = _
      rw [List.get?_append (by rw [gridAux_length]; exact hlt)]
      exact ih hlt
    · subst heq
      show ((gridAux h s rnd i).1 ++ [(rowAux s rnd ((gridAux h s rnd i).1.get? (i - 1)) i (gridAux h s rnd i).2 (colsOf h s)).1]).get? i = _
      rw [gridAux_snd]
      exact get?_concat_of_length (gridAux_length h s rnd i)

theorem newGrid_length (w h : ℚ) (s : Config) (rnd : RSrc) :
    (newGrid w h s rnd).length = rowsOf w s :=
  gridAux_length h s rnd (rowsOf w s)

theorem newGrid_get? (w h : ℚ) (s : Config) (rnd : RSrc) {i : ℕ}
    (hi : i < rowsOf w s) :
    (newGrid w h s rnd).get? i =
      some (rowAux s rnd ((gridAux h s rnd i).1.get? (i - 1)) i
        (11 * colsOf h s * i) (colsOf h s)).1 :=
  gridAux_get? h s rnd hi

theorem newGrid_row_length (w h : ℚ) (s : Config) (rnd : RSrc) {i : ℕ}
    {row : List Node} (hrow : (newGrid w h s rnd).get? i = some row) :
    row.length = colsOf h s := by
  have hi : i < rowsOf w s := by
    rw [← newGrid_length w h s rnd]
    exact (List.get?_eq_some.mp hrow).1
  rw [newGrid_get? w h s rnd hi] at hrow
  cases hrow
  exact rowAux_length _ _ _ _ _ _

theorem nodeAt_newGrid (w h : ℚ) (s : Config) (rnd : RSrc) {i j : ℕ}
    (hi : i < rowsOf w s) (hj : j < colsOf h s) :
    nodeAt (newGrid w h s rnd) i j =
      some (mkNode s rnd (11 * colsOf h s * i + 11 * j) i j
        ((gridAux h s rnd i).1.get? (i - 1))
        (rowAux s rnd ((gridAux h s rnd i).1.get? (i - 1)) i
          (11 * colsOf h s * i) j).1).1 := by
  unfold nodeAt
  rw [newGrid_get? w h s rnd hi]
  show (rowAux s rnd ((gridAux h s rnd i).1.get? (i - 1)) i
      (11 * colsOf h s * i) (colsOf h s)).1.get? j = _
  exact rowAux_get? _ _ _ _ _ hj

theorem prevRowArg_eq (w h : ℚ) (s : Config) (rnd : RSrc) {i : ℕ}
    (hi : i < rowsOf w s) :
    (gridAux h s rnd i).1.get? (i - 1) =
      if i = 0 then none else (newGrid w h s rnd).get? (i - 1) := by
  cases i with
  | zero => rfl
  | succ k =>
    rw [if_neg (Nat.succ_ne_zero k)]
    rw [Nat.succ_sub_one]
    rw [gridAux_get? h s rnd (Nat.lt_succ_self k),
      newGrid_get? w h s rnd (by omega)]

theorem nodeAt_newGrid_none_row (w h : ℚ) (s : Config) (rnd : RSrc)
    {i : ℕ} (j : ℕ) (hi : ¬ i < rowsOf w s) :
    nodeAt (newGrid w h s rnd) i j = none := by
  unfold nodeAt
  rw [List.get?_eq_none.mpr (by rw [newGrid_length]; omega)]
  rfl

theorem nodeAt_newGrid_none_col (w h : ℚ) (s : Config) (rnd : RSrc)
    {i j : ℕ} (hi : i < rowsOf w s) (hj : ¬ j < colsOf h s) :
    nodeAt (newGrid w h s rnd) i j = none := by
  unfold nodeAt
  rw [newGrid_get? w h s rnd hi]
  show (rowAux s rnd ((gridAux h s rnd i).1.get? (i - 1)) i
      (11 * colsOf h s * i) (colsOf h s)).1.get? j = none
  rw [List.get?_eq_none.mpr (by rw [rowAux_length]; omega)]

/-! ## Claim C2: grid dimensions -/

theorem dims_eval_w : (jsParseInt ((400 : ℚ) / cfg0.gridSize) + 5).toNat = 10 := by
  show (jsParseInt ((400 : ℚ) / 80) + 5).toNat = 10
  unfold jsParseInt
  rw [if_pos (by norm_num)]
  norm_num
  rfl

theorem dims_eval_h : (jsParseInt ((200 : ℚ) / cfg0.gridSize) + 5).toNat = 7 := by
  show (jsParseInt ((200 : ℚ) / 80) + 5).toNat = 7
  unfold jsParseInt
  rw [if_pos (by norm_num)]
  norm_num
  rfl

theorem rowsOf_400 : rowsOf 400 cfg0 = 10 := dims_eval_w

theorem colsOf_200 : colsOf 200 cfg0 = 7 := dims_eval_h

/-- C2 (amended): `newGrid` allocates `trunc(width/cellSize) + 5` rows of
`trunc(height/cellSize) + 5` nodes each (`parseInt` truncates, it does not
round up); in particular for width 400, height 200 and cell size 80 the
grid is 10 by 7. -/
theorem newGrid_dims_floor :
    (∀ (w h : ℚ) (s : Config) (rnd : RSrc),
      (newGrid w h s rnd).length = (jsParseInt (w / s.gridSize) + 5).toNat ∧
      ∀ i : ℕ, ((newGrid w h s rnd).get? i).elim True
        fun row => row.length = (jsParseInt (h / s.gridSize) + 5).toNat) ∧
    (∀ rnd : RSrc, (newGrid 400 200 cfg0 rnd).length = 10 ∧
      ∀ i : ℕ, ((newGrid 400 200 cfg0 rnd).get? i).elim True
        fun row => row.length = 7) := by
  have main : ∀ (w h : ℚ) (s : Config) (rnd : RSrc),
      (newGrid w h s rnd).length = (jsParseInt (w / s.gridSize) + 5).toNat ∧
      ∀ i : ℕ, ((newGrid w h s rnd).get? i).elim True
        fun row => row.length = (jsParseInt (h / s.gridSize) + 5).toNat := by
    intro w h s rnd
    constructor
    · exact newGrid_length w h s rnd
    · intro i
      cases hrow : (newGrid w h s rnd).get? i with
      | none => trivial
      | some row =>
        show row.length = (jsParseInt (h / s.gridSize) + 5).toNat
        exact newGrid_row_length w h s rnd hrow
  refine ⟨main, fun rnd => ?_⟩
  obtain ⟨h1, h2⟩ := main 400 200 cfg0 rnd
  constructor
  · rw [h1]; exact dims_eval_w
  · intro i
    have h3 := h2 i
    cases hrow : (newGrid 400 200 cfg0 rnd).get? i with
    | none => trivial
    | some row =>
      rw [hrow] at h3
      show row.length = 7
      rw [← dims_eval_h]
      exact h3

/-- C2 (counterexample): with width 400, height 200, cell size 80 the rows
of the constructed grid have 7 nodes, not `ceil(200/80) + 5 = 8` as the
claim states. -/
theorem newGrid_dims_not_ceil_cex :
    ((newGrid 400 200 cfg0 rndZero).get? 0).map List.length = some 7 ∧
    (⌈(200 : ℚ) / 80⌉ + 5 : ℤ) = 8 ∧ (7 : ℕ) ≠ 8 := by
  have hceil : (⌈(200 : ℚ) / 80⌉ : ℤ) = 3 := by
    rw [Int.ceil_eq_iff]
    norm_num
  refine ⟨?_, by rw [hceil]; norm_num, by decide⟩
  rw [newGrid_get? 400 200 cfg0 rndZero (by rw [rowsOf_400]; norm_num)]
  rw [Option.map_some']
  rw [rowAux_length]
  rw [colsOf_200]

/-! ## Claim C8: rest position equals current position at construction -/

/-- C8: every node of a freshly constructed grid has its rest position
`orgPos` equal to its current position `currPos` (same coordinates). -/
theorem newGrid_orgPos_eq_currPos (w h : ℚ) (s : Config) (rnd : RSrc)
    (i j : ℕ) :
    (nodeAt (newGrid w h s rnd) i j).elim True
      fun nd => nd.orgPos = nd.currPos := by
  by_cases hi : i < rowsOf w s
  · by_cases hj : j < colsOf h s
    · rw [nodeAt_newGrid w h s rnd hi hj]
      exact mkNode_orgPos_currPos _ _ _ _ _ _ _
    · rw [nodeAt_newGrid_none_col w h s rnd hi hj]
      trivial
  · rw [nodeAt_newGrid_none_row w h s rnd j hi]
    trivial

/-! ## Claim C6: color inheritance from neighbors -/

theorem mkNode_color_eq (s : Config) (rnd : RSrc) (t i j : ℕ)
    (pv : Option (List Node)) (rc : List Node) :
    (mkNode s rnd t i j pv rc).1._color =
      (getRandomColor rnd (t + 5)
        (baseColorOf pv rc j
          (getRandomColor rnd (t + 2) s.startColor s.startColorRandomness).1)
        (jsOrZero s.overTimeColorRandomness)).1 := rfl

/-- C6 (amended): in the constructed grid, node `(i, j)`'s basis color is
the `overTimeColorRandomness` perturbation of a base color whose red
channel comes from the display color of the node directly above (previous
row, same column), green from the upper-left diagonal neighbor, and blue
from the node to the left — each falling back, when the neighbor does not
exist, to the corresponding channel of a fresh per-node random sample
`getRandomColor(startColor, startColorRandomness)` of the configured start
color (not to the configured start color itself).  `t` is the clock of the
node's first random draw; the start-color sample is drawn at `t + 2` and
the perturbation at `t + 5`. -/
theorem newGrid_color_inheritance (w h : ℚ) (s : Config) (rnd : RSrc)
    {i j : ℕ} (hi : i < rowsOf w s) (hj : j < colsOf h s) :
    ∃ t : ℕ,
      (nodeAt (newGrid w h s rnd) i j).map Node._color =
        some (getRandomColor rnd (t + 5)
          (mkColor
            (chanR (if i = 0 then none else nodeAt (newGrid w h s rnd) (i - 1) j)
              ((getRandomColor rnd (t + 2) s.startColor s.startColorRandomness).1))
            (chanG (if i = 0 ∨ j = 0 then none else nodeAt (newGrid w h s rnd) (i - 1) (j - 1))
              ((getRandomColor rnd (t + 2) s.startColor s.startColorRandomness).1))
            (chanB (if j = 0 then none else nodeAt (newGrid w h s rnd) i (j - 1))
              ((getRandomColor rnd (t + 2) s.startColor s.startColorRandomness).1)))
          (jsOrZero s.overTimeColorRandomness)).1 := by
  refine ⟨11 * colsOf h s * i + 11 * j, ?_⟩
  rw [nodeAt_newGrid w h s rnd hi hj, Option.map_some']
  rw [mkNode_color_eq]
  have hR : ((gridAux h s rnd i).1.get? (i - 1)).bind (fun pr => pr.get? j) =
      (if i = 0 then none else nodeAt (newGrid w h s rnd) (i - 1) j) := by
    rw [prevRowArg_eq w h s rnd hi]
    by_cases h0 : i = 0
    · rw [if_pos h0, if_pos h0]
      rfl
    · rw [if_neg h0, if_neg h0]
      rfl
  have hG : (if j = 0 then none
        else ((gridAux h s rnd i).1.get? (i - 1)).bind fun pr => pr.get? (j - 1)) =
      (if i = 0 ∨ j = 0 then none
        else nodeAt (newGrid w h s rnd) (i - 1) (j - 1)) := by
    by_cases hj0 : j = 0
    · rw [if_pos hj0, if_pos (Or.inr hj0)]
    · rw [if_neg hj0, prevRowArg_eq w h s rnd hi]
      by_cases hi0 : i = 0
      · rw [if_pos hi0, if_pos (Or.inl hi0)]
        rfl
      · rw [if_neg hi0, if_neg (by tauto)]
        rfl
  have hB : (if j = 0 then none
        else (rowAux s rnd ((gridAux h s rnd i).1.get? (i - 1)) i
          (11 * colsOf h s * i) j).1.get? (j - 1)) =
      (if j = 0 then none else nodeAt (newGrid w h s rnd) i (j - 1)) := by
    by_cases hj0 : j = 0
    · rw [if_pos hj0, if_pos hj0]
    · rw [if_neg hj0, if_neg hj0]
      rw [rowAux_get? s rnd ((gridAux h s rnd i).1.get? (i - 1)) i
          (11 * colsOf h s * i) (show j - 1 < j by omega),
        nodeAt_newGrid w h s rnd hi (show j - 1 < colsOf h s by omega)]
  unfold baseColorOf
  rw [hR, hG, hB]

/-- C6 (witness): the amended inheritance statement instantiated at node
`(0, 0)` of a concrete grid. -/
theorem newGrid_color_inheritance_witness :
    (0 < rowsOf 400 cfg0) ∧ (0 < colsOf 200 cfg0) ∧
    (∃ t : ℕ,
      (nodeAt (newGrid 400 200 cfg0 rndZero) 0 0).map Node._color =
        some (getRandomColor rndZero (t + 5)
          (mkColor
            (chanR (if (0 : ℕ) = 0 then none else nodeAt (newGrid 400 200 cfg0 rndZero) (0 - 1) 0)
              ((getRandomColor rndZero (t + 2) cfg0.startColor cfg0.startColorRandomness).1))
            (chanG (if (0 : ℕ) = 0 ∨ (0 : ℕ) = 0 then none else nodeAt (newGrid 400 200 cfg0 rndZero) (0 - 1) (0 - 1))
              ((getRandomColor rndZero (t + 2) cfg0.startColor cfg0.startColorRandomness).1))
            (chanB (if (0 : ℕ) = 0 then none else nodeAt (newGrid 400 200 cfg0 rndZero) 0 (0 - 1))
              ((getRandomColor rndZero (t + 2) cfg0.startColor cfg0.startColorRandomness).1)))
          (jsOrZero cfg0.overTimeColorRandomness)).1) :=
  ⟨by rw [rowsOf_400]; norm_num, by rw [colsOf_200]; norm_num,
    newGrid_color_inheritance 400 200 cfg0 rndZero
      (by rw [rowsOf_400]; norm_num) (by rw [colsOf_200]; norm_num)⟩

/-- C6 (counterexample): node `(0, 0)` of the grid built with all-zero
random draws has no neighbors, and the red channel of its base color
(before the per-node perturbation) is 72 — the per-node random sample of
the start color — not 80, the red channel of the configured start color.
So the fallback channel is not taken from the configured start color. -/
theorem newGrid_color_fallback_cex :
    nodeAt (newGrid 400 200 cfg0 rndZero) 0 0 =
      some (mkNode cfg0 rndZero 0 0 0 none []).1 ∧
    (mkNode cfg0 rndZero 0 0 0 none []).1._color =
      (getRandomColor rndZero 5
        (baseColorOf none [] 0
          (getRandomColor rndZero 2 cfg0.startColor cfg0.startColorRandomness).1)
        (jsOrZero cfg0.overTimeColorRandomness)).1 ∧
    (baseColorOf none [] 0
      (getRandomColor rndZero 2 cfg0.startColor cfg0.startColorRandomness).1).r = 72 ∧
    cfg0.startColor.r = 80 ∧ ((72 : ℤ) ≠ 80) := by
  refine ⟨?_, mkNode_color_eq cfg0 rndZero 0 0 0 none [], ?_, ?_, by decide⟩
  · rw [nodeAt_newGrid 400 200 cfg0 rndZero
      (by rw [rowsOf_400]; norm_num) (by rw [colsOf_200]; norm_num)]
    rfl
  · norm_num [baseColorOf, chanR, chanG, chanB, getRandomColor, getRandomInt,
      rndZero, cfg0, mkColor, jsOrZero, setChannel, jsParseInt, limit]
  · norm_num [cfg0, mkColor, jsOrZero, setChannel, jsParseInt, limit]

/-! ## Claim C4: channel clamping -/

/-- C4: every `Color` construction and every channel assignment stores
channels clamped into `[0, 255]` — the setter `setChannel` always lands in
range, every constructed color is valid, and in particular both stored
colors of every grid node are valid. -/
theorem color_channels_clamped :
    (∀ v : ℚ, 0 ≤ setChannel v ∧ setChannel v ≤ 255) ∧
    (∀ r g b : ℚ, ColorValid (mkColor r g b)) ∧
    (∀ (w h : ℚ) (s : Config) (rnd : RSrc) (i j : ℕ),
      (nodeAt (newGrid w h s rnd) i j).elim True
        fun nd => ColorValid nd._color ∧ ColorValid nd.color) := by
  refine ⟨setChannel_mem, mkColor_valid, ?_⟩
  intro w h s rnd i j
  by_cases hi : i < rowsOf w s
  · by_cases hj : j < colsOf h s
    · rw [nodeAt_newGrid w h s rnd hi hj]
      exact ⟨mkColor_valid _ _ _, mkColor_valid _ _ _⟩
    · rw [nodeAt_newGrid_none_col w h s rnd hi hj]
      trivial
  · rw [nodeAt_newGrid_none_row w h s rnd j hi]
    trivial

/-! ## Claim C7: zero-randomness color copy -/

/-- C7: `getRandomColor(color, 0)` returns a color with exactly the input
color's channels, for any values of the three random draws in `[0, 1)`. -/
theorem getRandomColor_zero_id (rnd : RSrc) (t : ℕ) (c : Color)
    (hc : ColorValid c)
    (hd : ∀ k, k < 3 → 0 ≤ rnd (t + k) ∧ rnd (t + k) < 1) :
    (getRandomColor rnd t c 0).1 = c :=
  getRandomColor_zero_fst rnd t c hc hd

/-- C7 (witness): concrete instance at the start color with one-half
draws. -/
theorem getRandomColor_zero_id_witness :
    ColorValid (mkColor 80 90 250) ∧
    (∀ k, k < 3 → 0 ≤ rndHalf (0 + k) ∧ rndHalf (0 + k) < 1) ∧
    (getRandomColor rndHalf 0 (mkColor 80 90 250) 0).1 = mkColor 80 90 250 := by
  have h1 : ColorValid (mkColor 80 90 250) := mkColor_valid _ _ _
  have h2 : ∀ k, k < 3 → 0 ≤ rndHalf (0 + k) ∧ rndHalf (0 + k) < 1 := by
    intro k hk
    constructor
    · norm_num [rndHalf]
    · norm_num [rndHalf]
  exact ⟨h1, h2, getRandomColor_zero_id rndHalf 0 (mkColor 80 90 250) h1 h2⟩

/-! ## Claim C10: hexadecimal formatting -/

set_option maxRecDepth 4000 in
theorem hexPairAll : ∀ m : ℕ, m < 256 →
    ((if m < 16 then "0" else "") ++ jsToString16 m).length = 2 ∧
    ∀ ch ∈ ((if m < 16 then "0" else "") ++ jsToString16 m).data,
      isHexCh ch = true := by
  decide

theorem hexPairInt (n : ℤ) (h0 : 0 ≤ n) (h1 : n ≤ 255) :
    ((if n < 16 then "0" else "") ++ jsToString16 n.toNat).length = 2 ∧
    ∀ ch ∈ ((if n < 16 then "0" else "") ++ jsToString16 n.toNat).data,
      isHexCh ch = true := by
  have hn : (if n < 16 then ("0" : String) else "") =
      (if n.toNat < 16 then "0" else "") := by
    by_cases h : n < 16
    · rw [if_pos h, if_pos (by omega)]
    · rw [if_neg h, if_neg (by omega)]
  rw [hn]
  exact hexPairAll n.toNat (by omega)

/-- C10: for every color with channels in `[0, 255]`, `getHexCode` returns
a string of exactly 7 characters: a hash sign followed by six lowercase
hexadecimal digits (channels below 16 are zero-padded to two digits). -/
theorem getHexCode_format (c : Color) (hc : ColorValid c) :
    (getHexCode c).length = 7 ∧
    (getHexCode c).data.head? = some '#' ∧
    ∀ ch ∈ (getHexCode c).data.tail, isHexCh ch = true := by
  obtain ⟨hr0, hr1, hg0, hg1, hb0, hb1⟩ := hc
  obtain ⟨lr, mr⟩ := hexPairInt c.r hr0 hr1
  obtain ⟨lg, mg⟩ := hexPairInt c.g hg0 hg1
  obtain ⟨lb, mb⟩ := hexPairInt c.b hb0 hb1
  refine ⟨?_, ?_, ?_⟩
  · simp only [getHexCode, String.length_append, lr, lg, lb]
    decide
  · simp only [getHexCode, String.data_append]
    simp [List.singleton_append, List.cons_append]
  · intro ch hch
    simp only [String.data_append, List.mem_append] at mr mg mb
    simp only [getHexCode, String.data_append, List.singleton_append,
      List.cons_append, List.nil_append, List.tail_cons,
      List.mem_append] at hch
    rcases hch with ((h | h) | (h | h)) | (h | h)
    · exact mr ch (Or.inl h)
    · exact mr ch (Or.inr h)
    · exact mg ch (Or.inl h)
    · exact mg ch (Or.inr h)
    · exact mb ch (Or.inl h)
    · exact mb ch (Or.inr h)

/-- C10 (witness): concrete instance, channels `(5, 230, 0)`. -/
theorem getHexCode_format_witness :
    ColorValid (mkColor 5 230 0) ∧
    ((getHexCode (mkColor 5 230 0)).length = 7 ∧
     (getHexCode (mkColor 5 230 0)).data.head? = some '#' ∧
     ∀ ch ∈ (getHexCode (mkColor 5 230 0)).data.tail, isHexCh ch = true) := by
  have h1 : ColorValid (mkColor 5 230 0) := mkColor_valid _ _ _
  exact ⟨h1, getHexCode_format (mkColor 5 230 0) h1⟩

/-! ## Lemmas about `animateGrid` -/

theorem mapUpTo_length {α : Type} (f : α → α) :
    ∀ (k : ℕ) (l : List α), (mapUpTo f k l).length = l.length := by
  intro k l
  induction l generalizing k with
  | nil => cases k <;> rfl
  | cons a l ih =>
    cases k with
    | zero => rfl
    | succ k => simp [mapUpTo, ih]

theorem mapUpTo_get? {α : Type} (f : α → α) :
    ∀ (k : ℕ) (l : List α) (i : ℕ),
    (mapUpTo f k l).get? i = if i < k then (l.get? i).map f else l.get? i := by
  intro k l
  induction l generalizing k with
  | nil =>
    intro i
    cases k <;> simp [mapUpTo]
  | cons a l ih =>
    intro i
    cases k with
    | zero => simp [mapUpTo]
    | succ k =>
      cases i with
      | zero =>
        simp only [mapUpTo, List.get?_cons_zero, Option.map_some']
        rw [if_pos (Nat.succ_pos k)]
      | succ i =>
        show (mapUpTo f k l).get? i = _
        simp only [List.get?_cons_succ, Nat.succ_lt_succ_iff]
        exact ih k i

theorem map_mapUpTo {α β : Type} (f : α → β) (gf : α → α)
    (hfg : ∀ a, f (gf a) = f a) :
    ∀ (k : ℕ) (l : List α), (mapUpTo gf k l).map f = l.map f := by
  intro k l
  induction l generalizing k with
  | nil => cases k <;> rfl
  | cons a l ih =>
    cases k with
    | zero => rfl
    | succ k => simp [mapUpTo, hfg, ih]

theorem pointerStage_orgPos (mouse : Option Point) (n : Node) :
    (pointerStage mouse n).orgPos = n.orgPos := by
  unfold pointerStage
  cases mouse with
  | none => rfl
  | some mp =>
    dsimp only
    split <;> rfl

theorem animateNode_orgPos (mouse : Option Point) (n : Node) :
    (animateNode mouse n).orgPos = n.orgPos := by
  unfold animateNode smoothStage
  dsimp only
  exact pointerStage_orgPos mouse n

/-! ## Claim C9: animation never moves the rest positions -/

/-- C9: for every grid state and every pointer input, `animateGrid`
preserves the rest position `orgPos` of every node (the grid keeps its
shape and only `currPos` is rewritten; `drawGrid` is a pure reader in this
embedding — its only color write goes to the fresh copy returned by
`getRandomColor`, never to a node). -/
theorem animateGrid_preserves_orgPos (g : List (List Node))
    (mouse : Option Point) :
    (animateGrid g mouse).map (List.map Node.orgPos) =
      g.map (List.map Node.orgPos) := by
  unfold animateGrid
  exact map_mapUpTo _ _
    (fun row => map_mapUpTo _ _ (animateNode_orgPos mouse) _ _) _ _

/-! ## Smoothing lemmas (claim C5 groundwork) -/

theorem smoothAxis_some (ox cx : ℝ) :
    smoothAxis (some ox) (some cx) = some ((ox + cx * 50) / 51) := by
  unfold smoothAxis
  show jdiv (some (ox + cx * 50)) (some 51) = _
  unfold jdiv
  dsimp only
  rw [if_neg (by norm_num : ¬ (51 : ℝ) = 0)]

theorem smoothStage_some (n : Node) (ox oy cx cy : ℝ)
    (ho : n.orgPos = ⟨some ox, some oy⟩) (hc : n.currPos = ⟨some cx, some cy⟩) :
    smoothStage n =
      { n with currPos := ⟨some ((ox + cx * 50) / 51),
                           some ((oy + cy * 50) / 51)⟩ } := by
  unfold smoothStage
  rw [ho, hc]
  dsimp only
  rw [smoothAxis_some, smoothAxis_some]

/-! ## Pointer-branch lemmas (claims C1 and C3 groundwork) -/

theorem mulself_add_nonneg (dx dy : ℝ) : 0 ≤ dx * dx + dy * dy :=
  add_nonneg (mul_self_nonneg dx) (mul_self_nonneg dy)

theorem jlt_some_iff (a b : ℝ) : jlt (some a) (some b) ↔ a < b := by
  constructor
  · rintro ⟨x, y, hx, hy, hlt⟩
    rw [Option.some_inj] at hx hy
    rw [hx, hy]
    exact hlt
  · intro hlt
    exact ⟨a, b, rfl, rfl, hlt⟩

theorem fromPoints_some (ox oy mx my : ℝ) :
    Vector.fromPoints ⟨some ox, some oy⟩ ⟨some mx, some my⟩ =
      ⟨some (ox - mx), some (oy - my)⟩ := rfl

theorem getDistance_some (dx dy : ℝ) :
    Vector.getDistance ⟨some dx, some dy⟩ =
      some (Real.sqrt (dx * dx + dy * dy)) := by
  show jabs (jsqrt (some (dx * dx + dy * dy))) = _
  unfold jsqrt
  dsimp only
  rw [if_neg (not_lt.mpr (mulself_add_nonneg dx dy))]
  show some |Real.sqrt (dx * dx + dy * dy)| = _
  rw [abs_of_nonneg (Real.sqrt_nonneg _)]

theorem normalized_some (dx dy : ℝ) (hs : dx * dx + dy * dy ≠ 0) :
    Vector.normalized ⟨some dx, some dy⟩ =
      ⟨some (dx / Real.sqrt (dx * dx + dy * dy)),
       some (dy / Real.sqrt (dx * dx + dy * dy))⟩ := by
  have hpos : 0 < dx * dx + dy * dy :=
    lt_of_le_of_ne (mulself_add_nonneg dx dy) (Ne.symm hs)
  have hsq : ¬ Real.sqrt (dx * dx + dy * dy) = 0 :=
    (Real.sqrt_pos.mpr hpos).ne'
  show (⟨jdiv (some dx) (Vector.getDistance ⟨some dx, some dy⟩),
        jdiv (some dy) (Vector.getDistance ⟨some dx, some dy⟩)⟩ : Vector) = _
  rw [getDistance_some]
  unfold jdiv
  dsimp only
  rw [if_neg hsq, if_neg hsq]

theorem normalized_zero :
    Vector.normalized ⟨some 0, some 0⟩ = ⟨none, none⟩ := by
  show (⟨jdiv (some 0) (Vector.getDistance ⟨some 0, some 0⟩),
        jdiv (some 0) (Vector.getDistance ⟨some 0, some 0⟩)⟩ : Vector) = _
  rw [getDistance_some]
  rw [show (0 : ℝ) * 0 + 0 * 0 = 0 by norm_num, Real.sqrt_zero]
  unfold jdiv
  dsimp only
  simp

theorem pw_some (d : ℝ) :
    jsub (some 1) (jpow2 (jdiv (some d) (some 420))) =
      some (1 - d / 420 * (d / 420)) := by
  unfold jdiv
  dsimp only
  rw [if_neg (by norm_num : ¬ (420 : ℝ) = 0)]
  rfl

theorem sqrt_div420_sq (s : ℝ) (hs : 0 ≤ s) :
    Real.sqrt s / 420 * (Real.sqrt s / 420) = s / 176400 := by
  rw [div_mul_div_comm, Real.mul_self_sqrt hs]
  norm_num

theorem pointerStage_eq_push (n : Node) (ox oy mx my : ℝ)
    (ho : n.orgPos = ⟨some ox, some oy⟩)
    (hs : (ox - mx) * (ox - mx) + (oy - my) * (oy - my) ≠ 0)
    (hk : 0 < 1 - ((ox - mx) * (ox - mx) + (oy - my) * (oy - my)) / 176400) :
    pointerStage (some ⟨some mx, some my⟩) n =
      { n with currPos :=
        ⟨some (ox + (ox - mx) / Real.sqrt ((ox - mx) * (ox - mx) + (oy - my) * (oy - my))
            * 30 * (1 - ((ox - mx) * (ox - mx) + (oy - my) * (oy - my)) / 176400)),
         some (oy + (oy - my) / Real.sqrt ((ox - mx) * (ox - mx) + (oy - my) * (oy - my))
            * 30 * (1 - ((ox - mx) * (ox - mx) + (oy - my) * (oy - my)) / 176400))⟩ } := by
  unfold pointerStage
  dsimp only
  rw [ho, fromPoints_some, getDistance_some, pw_some,
    sqrt_div420_sq _ (mulself_add_nonneg _ _)]
  rw [if_pos ((jlt_some_iff _ _).mpr hk)]
  rw [normalized_some _ _ hs]
  rfl

theorem pointerStage_eq_far (n : Node) (ox oy mx my : ℝ)
    (ho : n.orgPos = ⟨some ox, some oy⟩)
    (hk : 1 - ((ox - mx) * (ox - mx) + (oy - my) * (oy - my)) / 176400 ≤ 0) :
    pointerStage (some ⟨some mx, some my⟩) n = n := by
  unfold pointerStage
  dsimp only
  rw [ho, fromPoints_some, getDistance_some, pw_some,
    sqrt_div420_sq _ (mulself_add_nonneg _ _)]
  rw [if_neg (by rw [jlt_some_iff]; exact not_lt.mpr hk)]

/-! ## Claim C1: direction of the pointer displacement -/

/-- C1 (amended): for a node with finite rest position and a finite
pointer position, when the influence `k = 1 - (d/420)^2` is positive the
pointer step of `animateGrid` sets `currPos` to `orgPos` displaced along
the normalized direction vector **from the pointer toward the rest
position** (the node is pushed away from the pointer), scaled by
`(30k, 30k)`; when `k ≤ 0` the pointer step leaves the node unchanged
(the subsequent smoothing step still applies). -/
theorem pointerStage_pushes_away (n : Node) (ox oy mx my : ℝ)
    (ho : n.orgPos = ⟨some ox, some oy⟩) :
    (((ox - mx) * (ox - mx) + (oy - my) * (oy - my) ≠ 0 →
      0 < 1 - ((ox - mx) * (ox - mx) + (oy - my) * (oy - my)) / 176400 →
      pointerStage (some ⟨some mx, some my⟩) n =
        { n with currPos :=
          ⟨some (ox + (ox - mx) / Real.sqrt ((ox - mx) * (ox - mx) + (oy - my) * (oy - my))
              * 30 * (1 - ((ox - mx) * (ox - mx) + (oy - my) * (oy - my)) / 176400)),
           some (oy + (oy - my) / Real.sqrt ((ox - mx) * (ox - mx) + (oy - my) * (oy - my))
              * 30 * (1 - ((ox - mx) * (ox - mx) + (oy - my) * (oy - my)) / 176400))⟩ })) ∧
    ((1 - ((ox - mx) * (ox - mx) + (oy - my) * (oy - my)) / 176400 ≤ 0 →
      pointerStage (some ⟨some mx, some my⟩) n = n)) :=
  ⟨fun hs hk => pointerStage_eq_push n ox oy mx my ho hs hk,
   fun hk => pointerStage_eq_far n ox oy mx my ho hk⟩

/-- C1 (witness): node at rest position `(0, 0)`, pointer at `(-100, 0)`:
the pointer step moves the node to `x = 4160/147 > 0`, i.e. away from the
pointer. -/
theorem pointerStage_pushes_away_witness :
    pointerStage (some ⟨some (-100), some 0⟩) (sampleNode 0 0 0 0) =
      { sampleNode 0 0 0 0 with currPos := ⟨some (4160 / 147), some 0⟩ } := by
  have h := (pointerStage_pushes_away (sampleNode 0 0 0 0) 0 0 (-100) 0 rfl).1
    (by norm_num) (by norm_num)
  rw [h]
  have hsq : Real.sqrt (((0 : ℝ) - -100) * (0 - -100) + ((0 : ℝ) - 0) * (0 - 0)) = 100 := by
    rw [show ((0 : ℝ) - -100) * (0 - -100) + ((0 : ℝ) - 0) * (0 - 0) = 100 ^ 2 by norm_num]
    exact Real.sqrt_sq (by norm_num)
  rw [hsq]
  norm_num [Node.mk.injEq, Point.mk.injEq]

/-- C1 (counterexample): at the same input the specification's
toward-the-pointer displacement formula gives `x = -4160/147`, while the
code produces `x = 4160/147`; the two differ, so the node is not moved
toward the pointer. -/
theorem pointerStage_not_toward_cex :
    (pointerStage (some ⟨some (-100), some 0⟩) (sampleNode 0 0 0 0)).currPos.x =
      some (4160 / 147) ∧
    specTowardX 0 0 (-100) 0 = -(4160 / 147) ∧
    ((4160 / 147 : ℝ) ≠ -(4160 / 147)) := by
  refine ⟨?_, ?_, by norm_num⟩
  · have h := pointerStage_eq_push (sampleNode 0 0 0 0) 0 0 (-100) 0 rfl
      (by norm_num) (by norm_num)
    rw [h]
    have hsq : Real.sqrt (((0 : ℝ) - -100) * (0 - -100) + ((0 : ℝ) - 0) * (0 - 0)) = 100 := by
      rw [show ((0 : ℝ) - -100) * (0 - -100) + ((0 : ℝ) - 0) * (0 - 0) = 100 ^ 2 by norm_num]
      exact Real.sqrt_sq (by norm_num)
    show some _ = some _
    rw [hsq]
    norm_num
  · unfold specTowardX
    rw [show ((-100 : ℝ) - 0) ^ 2 + ((0 : ℝ) - 0) ^ 2 = 100 ^ 2 by norm_num,
      Real.sqrt_sq (by norm_num : (0 : ℝ) ≤ 100)]
    norm_num

/-! ## Claim C3: pointer exactly on a node's rest position -/

/-- C3 (code behavior at the failing input): when the pointer sits exactly
on a node's rest position, the zero difference vector is normalized as
`0/0`, and `animateGrid`'s per-node body leaves the node's `currPos` with
non-finite (NaN) coordinates — the degenerate case is not handled. -/
theorem animateNode_nan_at_rest_pointer :
    (sampleNode 0 0 0 0).orgPos = (⟨some 0, some 0⟩ : Point) ∧
    (animateNode (some ⟨some 0, some 0⟩) (sampleNode 0 0 0 0)).currPos =
      ⟨none, none⟩ := by
  refine ⟨rfl, ?_⟩
  have h1 : pointerStage (some ⟨some 0, some 0⟩) (sampleNode 0 0 0 0) =
      { sampleNode 0 0 0 0 with currPos := ⟨none, none⟩ } := by
    unfold pointerStage
    dsimp only
    rw [show (sampleNode 0 0 0 0).orgPos = (⟨some 0, some 0⟩ : Point) from rfl]
    rw [fromPoints_some, getDistance_some, pw_some,
      sqrt_div420_sq _ (mulself_add_nonneg _ _)]
    rw [if_pos ((jlt_some_iff _ _).mpr (by norm_num))]
    rw [show ((0 : ℝ) - 0) = 0 by norm_num]
    rw [normalized_zero]
    rfl
  show (smoothStage (pointerStage (some ⟨some 0, some 0⟩) (sampleNode 0 0 0 0))).currPos = _
  rw [h1]
  rfl

/-! ## Claim C5: settling with no pointer input -/

theorem animateGrid_length (g : List (List Node)) (mouse : Option Point) :
    (animateGrid g mouse).length = g.length :=
  mapUpTo_length _ _ _

theorem animateGrid_nodeAt (g : List (List Node)) (mouse : Option Point)
    {i j : ℕ} {row : List Node} (hrow : g.get? i = some row)
    (hi : i + 1 < g.length) (hj : j + 1 < row.length) :
    nodeAt (animateGrid g mouse) i j = (row.get? j).map (animateNode mouse) := by
  unfold animateGrid nodeAt
  rw [mapUpTo_get?, if_pos (by omega : i < g.length - 1), hrow]
  show (mapUpTo (animateNode mouse) (row.length - 1) row).get? j = _
  rw [mapUpTo_get?, if_pos (by omega : j < row.length - 1)]

theorem animateGrid_row_length (g : List (List Node)) (mouse : Option Point)
    (i : ℕ) :
    ((animateGrid g mouse).get? i).map List.length =
      (g.get? i).map List.length := by
  unfold animateGrid
  rw [mapUpTo_get?]
  split
  · cases hrow : g.get? i with
    | none => rfl
    | some row => simp [mapUpTo_length]
  · rfl

theorem iterAnimate_length (n : ℕ) (g : List (List Node)) :
    (iterAnimate n g).length = g.length := by
  induction n with
  | zero => rfl
  | succ n ih =>
    show (animateGrid (iterAnimate n g) none).length = _
    rw [animateGrid_length, ih]

theorem iterAnimate_row_length (n : ℕ) (g : List (List Node)) (i : ℕ) :
    ((iterAnimate n g).get? i).map List.length = (g.get? i).map List.length := by
  induction n with
  | zero => rfl
  | succ n ih =>
    show ((animateGrid (iterAnimate n g) none).get? i).map List.length = _
    rw [animateGrid_row_length, ih]

theorem smooth_closed_step (o d : ℝ) (n : ℕ) :
    (o + (o + (50 / 51) ^ n * d) * 50) / 51 = o + (50 / 51) ^ (n + 1) * d := by
  rw [pow_succ]
  ring

theorem iterAnimate_node (g : List (List Node)) {i j : ℕ} {row : List Node}
    {nd : Node} (hrow : g.get? i = some row) (hi : i + 1 < g.length)
    (hj : j + 1 < row.length) (hnd : row.get? j = some nd)
    (ox oy cx cy : ℝ) (ho : nd.orgPos = ⟨some ox, some oy⟩)
    (hc : nd.currPos = ⟨some cx, some cy⟩) :
    ∀ n : ℕ, nodeAt (iterAnimate n g) i j =
      some { nd with currPos := ⟨some (ox + (50 / 51) ^ n * (cx - ox)),
                                 some (oy + (50 / 51) ^ n * (cy - oy))⟩ } := by
  intro n
  induction n with
  | zero =>
    show nodeAt g i j = _
    unfold nodeAt
    rw [hrow]
    show row.get? j = _
    rw [hnd]
    have hpt : (⟨some (ox + (50 / 51 : ℝ) ^ 0 * (cx - ox)),
        some (oy + (50 / 51 : ℝ) ^ 0 * (cy - oy))⟩ : Point) = ⟨some cx, some cy⟩ := by
      norm_num
    rw [hpt, ← hc]
  | succ n ih =>
    obtain ⟨row', hrow', hlen'⟩ : ∃ row', (iterAnimate n g).get? i = some row' ∧
        row'.length = row.length := by
      have h := iterAnimate_row_length n g i
      rw [hrow] at h
      cases hrow' : (iterAnimate n g).get? i with
      | none => rw [hrow'] at h; simp at h
      | some row' =>
        rw [hrow'] at h
        simp only [Option.map_some', Option.some_inj] at h
        exact ⟨row', rfl, h⟩
    have hi' : i + 1 < (iterAnimate n g).length := by
      rw [iterAnimate_length]
      exact hi
    have hj' : j + 1 < row'.length := by
      rw [hlen']
      exact hj
    show nodeAt (animateGrid (iterAnimate n g) none) i j = _
    rw [animateGrid_nodeAt (iterAnimate n g) none hrow' hi' hj']
    have hndn : row'.get? j = some { nd with currPos :=
        ⟨some (ox + (50 / 51) ^ n * (cx - ox)),
         some (oy + (50 / 51) ^ n * (cy - oy))⟩ } := by
      have h := ih
      unfold nodeAt at h
      rw [hrow'] at h
      exact h
    rw [hndn, Option.map_some']
    refine congrArg some ?_
    have e2 := smoothStage_some ({ nd with currPos :=
        ⟨some (ox + (50 / 51) ^ n * (cx - ox)),
         some (oy + (50 / 51) ^ n * (cy - oy))⟩ }) ox oy
      (ox + (50 / 51) ^ n * (cx - ox)) (oy + (50 / 51) ^ n * (cy - oy)) ho rfl
    show smoothStage ({ nd with currPos :=
        ⟨some (ox + (50 / 51) ^ n * (cx - ox)),
         some (oy + (50 / 51) ^ n * (cy - oy))⟩ }) = _
    rw [e2]
    have hx := smooth_closed_step ox (cx - ox) n
    have hy := smooth_closed_step oy (cy - oy) n
    rw [hx, hy]

theorem distOf_shift (q dx dy ox oy : ℝ) (hq : 0 ≤ q) :
    distOf (ox + q * dx) (oy + q * dy) ox oy =
      q * Real.sqrt (dx ^ 2 + dy ^ 2) := by
  unfold distOf
  rw [show ox + q * dx - ox = q * dx by ring,
    show oy + q * dy - oy = q * dy by ring,
    show (q * dx) ^ 2 + (q * dy) ^ 2 = q ^ 2 * (dx ^ 2 + dy ^ 2) by ring,
    Real.sqrt_mul (sq_nonneg q), Real.sqrt_sq hq]

/-- C5 (amended): take any grid state and any node outside the sentinel
last row/column whose positions are finite and whose current position
differs from its rest position.  One application of `animateGrid` with no
pointer position moves the node strictly closer to its rest position (the
distance is multiplied by `50/51`), and for every `ε > 0` there is a bound
`N` such that after any `n ≥ N` repetitions the node sits within `ε` of
its rest position.  (Sentinel nodes are never updated, and a node already
at rest stays at rest, so the restriction to moved, updated nodes is
necessary.) -/
theorem smoothing_settles (g : List (List Node)) (i j : ℕ) (row : List Node)
    (nd : Node) (ox oy cx cy : ℝ)
    (hrow : g.get? i = some row) (hi : i + 1 < g.length)
    (hj : j + 1 < row.length) (hnd : row.get? j = some nd)
    (ho : nd.orgPos = ⟨some ox, some oy⟩) (hc : nd.currPos = ⟨some cx, some cy⟩)
    (hne : ¬ (cx = ox ∧ cy = oy)) :
    (∃ cx1 cy1, nodeAt (animateGrid g none) i j =
        some { nd with currPos := ⟨some cx1, some cy1⟩ } ∧
      distOf cx1 cy1 ox oy < distOf cx cy ox oy) ∧
    (∀ ε : ℝ, 0 < ε → ∃ N : ℕ, ∀ n, N ≤ n →
      ∃ cxn cyn, nodeAt (iterAnimate n g) i j =
          some { nd with currPos := ⟨some cxn, some cyn⟩ } ∧
        distOf cxn cyn ox oy < ε) := by
  have hiter := iterAnimate_node g hrow hi hj hnd ox oy cx cy ho hc
  set dx := cx - ox with hdx
  set dy := cy - oy with hdy
  have hS : (0 : ℝ) < dx ^ 2 + dy ^ 2 := by
    rcases not_and_or.mp hne with h | h
    · have h0 : dx ≠ 0 := sub_ne_zero.mpr h
      nlinarith [sq_nonneg dy, sq_pos_of_ne_zero h0]
    · have h0 : dy ≠ 0 := sub_ne_zero.mpr h
      nlinarith [sq_nonneg dx, sq_pos_of_ne_zero h0]
  have hD : 0 < Real.sqrt (dx ^ 2 + dy ^ 2) := Real.sqrt_pos.mpr hS
  set D := Real.sqrt (dx ^ 2 + dy ^ 2) with hDdef
  have hbase : distOf cx cy ox oy = D := by
    show Real.sqrt ((cx - ox) ^ 2 + (cy - oy) ^ 2) = D
    rw [← hdx, ← hdy]
  have hdistn : ∀ n : ℕ,
      distOf (ox + (50 / 51 : ℝ) ^ n * dx) (oy + (50 / 51 : ℝ) ^ n * dy) ox oy =
        (50 / 51 : ℝ) ^ n * D := by
    intro n
    rw [distOf_shift _ _ _ _ _ (by positivity)]
  constructor
  · refine ⟨ox + (50 / 51 : ℝ) ^ 1 * dx, oy + (50 / 51 : ℝ) ^ 1 * dy, hiter 1, ?_⟩
    rw [hdistn 1, hbase]
    calc (50 / 51 : ℝ) ^ 1 * D < 1 * D := by
          apply mul_lt_mul_of_pos_right _ hD
          norm_num
      _ = D := one_mul D
  · intro ε hε
    obtain ⟨N, hN⟩ := exists_pow_lt_of_lt_one
      (div_pos hε (by linarith : (0 : ℝ) < D + 1))
      (by norm_num : (50 : ℝ) / 51 < 1)
    refine ⟨N, fun n hn =>
      ⟨ox + (50 / 51 : ℝ) ^ n * dx, oy + (50 / 51 : ℝ) ^ n * dy, hiter n, ?_⟩⟩
    rw [hdistn n]
    have h1 : (50 / 51 : ℝ) ^ n ≤ (50 / 51 : ℝ) ^ N :=
      pow_le_pow_of_le_one (by norm_num) (by norm_num) hn
    have h2 : (50 / 51 : ℝ) ^ n * D ≤ (50 / 51 : ℝ) ^ N * D :=
      mul_le_mul_of_nonneg_right h1 (le_of_lt hD)
    have h3 : (50 / 51 : ℝ) ^ N * D ≤ (50 / 51 : ℝ) ^ N * (D + 1) :=
      mul_le_mul_of_nonneg_left (by linarith) (by positivity)
    have h4 : (50 / 51 : ℝ) ^ N * (D + 1) < (ε / (D + 1)) * (D + 1) :=
      mul_lt_mul_of_pos_right hN (by linarith)
    have h5 : (ε / (D + 1)) * (D + 1) = ε := div_mul_cancel₀ ε (by linarith)
    linarith

/-- C5 (witness): the amended statement instantiated on a concrete 2×2
grid whose node `(0, 0)` rests at the origin and currently sits at
`(51, 0)`. -/
theorem smoothing_settles_witness :
    (∃ cx1 cy1, nodeAt (animateGrid gridC5w none) 0 0 =
        some { sampleNode 0 0 51 0 with currPos := ⟨some cx1, some cy1⟩ } ∧
      distOf cx1 cy1 0 0 < distOf 51 0 0 0) ∧
    (∀ ε : ℝ, 0 < ε → ∃ N : ℕ, ∀ n, N ≤ n →
      ∃ cxn cyn, nodeAt (iterAnimate n gridC5w) 0 0 =
          some { sampleNode 0 0 51 0 with currPos := ⟨some cxn, some cyn⟩ } ∧
        distOf cxn cyn 0 0 < ε) :=
  smoothing_settles gridC5w 0 0 [sampleNode 0 0 51 0, sampleNode 0 80 0 80]
    (sampleNode 0 0 51 0) 0 0 51 0 rfl (by norm_num [gridC5w])
    (by norm_num) rfl rfl rfl (by norm_num)

/-- C5 (counterexample): in a one-by-one grid the single node is in the
sentinel last row/column, so `animateGrid` with no pointer position leaves
it untouched even though its current position differs from its rest
position — its distance to the rest position does not strictly decrease. -/
theorem smoothing_not_strict_cex :
    nodeAt gridC5 0 0 = some (sampleNode 0 0 5 0) ∧
    (sampleNode 0 0 5 0).currPos ≠ (sampleNode 0 0 5 0).orgPos ∧
    animateGrid gridC5 none = gridC5 ∧
    ¬ (distOf 5 0 0 0 < distOf 5 0 0 0) := by
  refine ⟨rfl, ?_, rfl, lt_irrefl _⟩
  intro hcon
  have h : some (5 : ℝ) = some 0 := congrArg Point.x hcon
  rw [Option.some_inj] at h
  norm_num at h

end CanvasHeader
